import Mathlib

/-!
# Verification of the floating-window workspace engine

Shallow embedding of the layout engine of the `productivity-lab` repository:
the detail-block placement search, the focus engine, the stacking-order
manager, layout persistence sanitization, and the multi-project workspace
state machine.  JavaScript numbers are modelled as rationals (`ℚ`), which is
exact for all the arithmetic the engine performs (additions, subtractions,
min/max, and halving).

Sources:
* `src/app/page.tsx` — placement, focus, stacking, persistence, per-page state.
* `src/features/todos/components/WorkspaceProjectItem.tsx` — the second copy
  of the placement / focus helpers.
* `src/features/todos/types/workspace.ts` — the workspace state machine.
-/

/-- A rectangle: `BlockRect = Pick<BlockLayout, "x" | "y" | "width" | "height">`. -/
structure BlockRect where
  x : ℚ
  y : ℚ
  width : ℚ
  height : ℚ
  deriving DecidableEq, Repr

/-- A block layout: a rectangle plus a stacking index `z`. -/
structure BlockLayout where
  x : ℚ
  y : ℚ
  width : ℚ
  height : ℚ
  z : ℚ
  deriving DecidableEq, Repr

/-- `clamp` from both source files: `Math.min(Math.max(value, min), max)`. -/
def clamp (value lo hi : ℚ) : ℚ :=
  min (max value lo) hi

/-- `effectiveMinWidth` from `computeDetailBlockPlacement`
(`Math.max(Math.min(minWidth, containerWidth - padding * 2), 240)` with
`minWidth = 320`, `padding = 32`). -/
def effectiveMinWidth (containerWidth : ℚ) : ℚ :=
  max (min 320 (containerWidth - 64)) 240

/-- `effectiveMinHeight` from `computeDetailBlockPlacement`
(`minHeight = 420`, floor `320`). -/
def effectiveMinHeight (containerHeight : ℚ) : ℚ :=
  max (min 420 (containerHeight - 64)) 320

/-- `preferredWidth` from `computeDetailBlockPlacement`:
`clamp(detailLayout?.width ?? 420, effectiveMinWidth, Math.max(effectiveMinWidth, containerWidth - padding * 2))`. -/
def preferredWidth (detailLayout : Option BlockLayout) (containerWidth : ℚ) : ℚ :=
  clamp ((detailLayout.map BlockLayout.width).getD 420)
    (effectiveMinWidth containerWidth)
    (max (effectiveMinWidth containerWidth) (containerWidth - 64))

/-- `preferredHeight` from `computeDetailBlockPlacement`. -/
def preferredHeight (detailLayout : Option BlockLayout) (containerHeight : ℚ) : ℚ :=
  clamp ((detailLayout.map BlockLayout.height).getD 520)
    (effectiveMinHeight containerHeight)
    (max (effectiveMinHeight containerHeight) (containerHeight - 64))

/-- `attemptRight` from `computeDetailBlockPlacement` (`gap = 24`, `padding = 32`). -/
def attemptRight (todosLayout : BlockLayout) (detailLayout : Option BlockLayout)
    (containerWidth containerHeight : ℚ) : Option BlockRect :=
  let availableWidth := containerWidth - 32 - (todosLayout.x + todosLayout.width + 24)
  if availableWidth < effectiveMinWidth containerWidth then none
  else
    let width := min (preferredWidth detailLayout containerWidth) availableWidth
    let x := todosLayout.x + todosLayout.width + 24
    let y := clamp todosLayout.y 32
      (containerHeight - preferredHeight detailLayout containerHeight - 32)
    let availableHeight := containerHeight - 32 - y
    if availableHeight < effectiveMinHeight containerHeight then none
    else
      let height := min (preferredHeight detailLayout containerHeight) availableHeight
      some ⟨x, y, width, height⟩

/-- `attemptLeft` from `computeDetailBlockPlacement`. -/
def attemptLeft (todosLayout : BlockLayout) (detailLayout : Option BlockLayout)
    (containerWidth containerHeight : ℚ) : Option BlockRect :=
  let availableWidth := todosLayout.x - 32 - 24
  if availableWidth < effectiveMinWidth containerWidth then none
  else
    let width := min (preferredWidth detailLayout containerWidth) availableWidth
    let x := todosLayout.x - 24 - width
    let y := clamp todosLayout.y 32
      (containerHeight - preferredHeight detailLayout containerHeight - 32)
    let availableHeight := containerHeight - 32 - y
    if availableHeight < effectiveMinHeight containerHeight then none
    else
      let height := min (preferredHeight detailLayout containerHeight) availableHeight
      some ⟨x, y, width, height⟩

/-- `attemptBelow` from `computeDetailBlockPlacement`. -/
def attemptBelow (todosLayout : BlockLayout) (detailLayout : Option BlockLayout)
    (containerWidth containerHeight : ℚ) : Option BlockRect :=
  let availableHeight := containerHeight - 32 - (todosLayout.y + todosLayout.height + 24)
  if availableHeight < effectiveMinHeight containerHeight then none
  else
    let height := min (preferredHeight detailLayout containerHeight) availableHeight
    let y := todosLayout.y + todosLayout.height + 24
    let x := clamp todosLayout.x 32
      (containerWidth - preferredWidth detailLayout containerWidth - 32)
    let availableWidth := containerWidth - 32 - x
    if availableWidth < effectiveMinWidth containerWidth then none
    else
      let width := min (preferredWidth detailLayout containerWidth) availableWidth
      some ⟨x, y, width, height⟩

/-- `attemptAbove` from `computeDetailBlockPlacement`. -/
def attemptAbove (todosLayout : BlockLayout) (detailLayout : Option BlockLayout)
    (containerWidth containerHeight : ℚ) : Option BlockRect :=
  let availableHeight := todosLayout.y - 32 - 24
  if availableHeight < effectiveMinHeight containerHeight then none
  else
    let height := min (preferredHeight detailLayout containerHeight) availableHeight
    let y := todosLayout.y - 24 - height
    let x := clamp todosLayout.x 32
      (containerWidth - preferredWidth detailLayout containerWidth - 32)
    let availableWidth := containerWidth - 32 - x
    if availableWidth < effectiveMinWidth containerWidth then none
    else
      let width := min (preferredWidth detailLayout containerWidth) availableWidth
      some ⟨x, y, width, height⟩

/-- The centered fallback of `computeDetailBlockPlacement` in `src/app/page.tsx`:
it re-clamps `preferredWidth`/`preferredHeight` before centering. -/
def centeredFallback (detailLayout : Option BlockLayout)
    (containerWidth containerHeight : ℚ) : BlockRect :=
  let fallbackWidthClamped := clamp (preferredWidth detailLayout containerWidth)
    (effectiveMinWidth containerWidth)
    (max (effectiveMinWidth containerWidth) (containerWidth - 64))
  let fallbackHeightClamped := clamp (preferredHeight detailLayout containerHeight)
    (effectiveMinHeight containerHeight)
    (max (effectiveMinHeight containerHeight) (containerHeight - 64))
  { x := clamp ((containerWidth - fallbackWidthClamped) / 2) 32
      (max 32 (containerWidth - fallbackWidthClamped - 32)),
    y := clamp ((containerHeight - fallbackHeightClamped) / 2) 32
      (max 32 (containerHeight - fallbackHeightClamped - 32)),
    width := fallbackWidthClamped,
    height := fallbackHeightClamped }

/-- The centered fallback of `computeDetailBlockPlacement` in
`WorkspaceProjectItem.tsx`: it uses `preferredWidth`/`preferredHeight` directly. -/
def centeredFallbackWPI (detailLayout : Option BlockLayout)
    (containerWidth containerHeight : ℚ) : BlockRect :=
  { x := clamp ((containerWidth - preferredWidth detailLayout containerWidth) / 2) 32
      (max 32 (containerWidth - preferredWidth detailLayout containerWidth - 32)),
    y := clamp ((containerHeight - preferredHeight detailLayout containerHeight) / 2) 32
      (max 32 (containerHeight - preferredHeight detailLayout containerHeight - 32)),
    width := preferredWidth detailLayout containerWidth,
    height := preferredHeight detailLayout containerHeight }

/-- `computeDetailBlockPlacement` from `src/app/page.tsx`: the four directional
attempts are tried in order (right, left, below, above); the first success
wins, else the centered fallback is returned. -/
def computeDetailBlockPlacement (todosLayout : BlockLayout)
    (detailLayout : Option BlockLayout)
    (containerWidth containerHeight : ℚ) : BlockRect :=
  match attemptRight todosLayout detailLayout containerWidth containerHeight with
  | some placement => placement
  | none =>
    match attemptLeft todosLayout detailLayout containerWidth containerHeight with
    | some placement => placement
    | none =>
      match attemptBelow todosLayout detailLayout containerWidth containerHeight with
      | some placement => placement
      | none =>
        match attemptAbove todosLayout detailLayout containerWidth containerHeight with
        | some placement => placement
        | none => centeredFallback detailLayout containerWidth containerHeight

/-- `computeDetailBlockPlacement` from `WorkspaceProjectItem.tsx`
(`attemptRight() ?? attemptLeft() ?? attemptBelow() ?? attemptAbove() ?? centered`). -/
def computeDetailBlockPlacementWPI (todosLayout : BlockLayout)
    (detailLayout : Option BlockLayout)
    (containerWidth containerHeight : ℚ) : BlockRect :=
  match attemptRight todosLayout detailLayout containerWidth containerHeight with
  | some placement => placement
  | none =>
    match attemptLeft todosLayout detailLayout containerWidth containerHeight with
    | some placement => placement
    | none =>
      match attemptBelow todosLayout detailLayout containerWidth containerHeight with
      | some placement => placement
      | none =>
        match attemptAbove todosLayout detailLayout containerWidth containerHeight with
        | some placement => placement
        | none => centeredFallbackWPI detailLayout containerWidth containerHeight

/-- The rectangle occupied by a block layout. -/
def listRect (layout : BlockLayout) : BlockRect :=
  ⟨layout.x, layout.y, layout.width, layout.height⟩

/-- Two rectangles intersect when their interiors overlap. -/
def rectsIntersect (a b : BlockRect) : Prop :=
  a.x < b.x + b.width ∧ b.x < a.x + a.width ∧
  a.y < b.y + b.height ∧ b.y < a.y + a.height

instance (a b : BlockRect) : Decidable (rectsIntersect a b) := by
  unfold rectsIntersect
  infer_instance

/-- Containment within the padded container bounds (`padding = 32`). -/
def rectWithinPadding (r : BlockRect) (containerWidth containerHeight : ℚ) : Prop :=
  32 ≤ r.x ∧ r.x + r.width ≤ containerWidth - 32 ∧
  32 ≤ r.y ∧ r.y + r.height ≤ containerHeight - 32

instance (r : BlockRect) (w h : ℚ) : Decidable (rectWithinPadding r w h) := by
  unfold rectWithinPadding
  infer_instance

/-- `computeFocusLayout` (identical in `page.tsx` and `WorkspaceProjectItem.tsx`):
enlarge to at least 520×580, cap at `max(420, W-64)`/`max(480, H-64)`,
center and clamp (`padding = 32`).  The source keeps the remaining fields of
`layout` (in particular `z`) via object spread. -/
def computeFocusLayout (layout : BlockLayout) (containerWidth containerHeight : ℚ) :
    BlockLayout :=
  let maxWidth := max 420 (containerWidth - 64)
  let maxHeight := max 480 (containerHeight - 64)
  let width := min (max layout.width 520) maxWidth
  let height := min (max layout.height 580) maxHeight
  let maxX := max 32 (containerWidth - width - 32)
  let maxY := max 32 (containerHeight - height - 32)
  { layout with
    width := width
    height := height
    x := clamp ((containerWidth - width) / 2) 32 maxX
    y := clamp ((containerHeight - height) / 2) 32 maxY }

/-- `BlockId` of `src/app/page.tsx`: `"todos" | "todoDetails"`. -/
inductive PageBlockId where
  | todos
  | todoDetails
  deriving DecidableEq, Repr

/-- `BlockLayouts = Record<BlockId, BlockLayout>` of `src/app/page.tsx`. -/
structure BlockLayouts where
  todos : BlockLayout
  todoDetails : BlockLayout
  deriving DecidableEq, Repr

/-- Indexing `layouts[id]`. -/
def BlockLayouts.get (layouts : BlockLayouts) : PageBlockId → BlockLayout
  | .todos => layouts.todos
  | .todoDetails => layouts.todoDetails

/-- The spread update `{ ...layouts, [id]: layout }`. -/
def BlockLayouts.set (layouts : BlockLayouts) : PageBlockId → BlockLayout → BlockLayouts
  | .todos, layout => { layouts with todos := layout }
  | .todoDetails, layout => { layouts with todoDetails := layout }

/-- `Object.values(layouts)` for the two-block record. -/
def BlockLayouts.values (layouts : BlockLayouts) : List BlockLayout :=
  [layouts.todos, layouts.todoDetails]

/-- `getNextZ` from `src/app/page.tsx`:
`Object.values(layouts).reduce((highest, current) => Math.max(highest, current.z), 0) + 1`,
over an arbitrary collection of layouts. -/
def getNextZ (layouts : List BlockLayout) : ℚ :=
  layouts.foldl (fun highest current => max highest current.z) 0 + 1

/-- The `reduce` computing `highest` inside `raiseBlock` (same fold, without the `+ 1`). -/
def highestZ (layouts : List BlockLayout) : ℚ :=
  layouts.foldl (fun maxValue current => max maxValue current.z) 0

/-- `raiseBlock` from `src/app/page.tsx`: bump the block to `highest + 1`
unless it already carries the highest z, in which case the state object is
returned unchanged. -/
def raiseBlock (previous : BlockLayouts) (id : PageBlockId) : BlockLayouts :=
  let layout := previous.get id
  let highest := highestZ previous.values
  if layout.z = highest then previous
  else previous.set id { layout with z := highest + 1 }

/-- The layout-relevant state of the `Home` component in `src/app/page.tsx`:
`blockLayouts` (React state), `focusedBlockId` (React state) and
`previousLayoutsRef.current` (the remembered pre-focus layouts). -/
structure PageState where
  blockLayouts : BlockLayouts
  focusedBlockId : Option PageBlockId
  previousLayouts : PageBlockId → Option BlockLayout

/-- `toggleFocus` from `src/app/page.tsx`.  Exiting focus restores the
remembered layout (or keeps the current one when no record exists) with a
freshly bumped z and clears the record; entering focus remembers the current
layout, applies `computeFocusLayout` and bumps z. -/
def toggleFocus (s : PageState) (id : PageBlockId)
    (containerWidth containerHeight : ℚ) : PageState :=
  if s.focusedBlockId = some id then
    let storedLayout := s.previousLayouts id
    let layout := s.blockLayouts.get id
    let restored := storedLayout.getD layout
    { blockLayouts :=
        s.blockLayouts.set id { restored with z := getNextZ s.blockLayouts.values }
      focusedBlockId := none
      previousLayouts := fun b => if b = id then none else s.previousLayouts b }
  else
    let layout := s.blockLayouts.get id
    let focusedLayout := computeFocusLayout layout containerWidth containerHeight
    { blockLayouts :=
        s.blockLayouts.set id { focusedLayout with z := getNextZ s.blockLayouts.values }
      focusedBlockId := some id
      previousLayouts := fun b => if b = id then some layout else s.previousLayouts b }

/-- A JSON value found in a stored layout field: a number, or anything else
(string, boolean, null, object, array).  `sanitizeLayout` accepts a field
only when `typeof` says it is a number. -/
inductive JsonValue where
  | num (value : ℚ)
  | other
  deriving DecidableEq, Repr

/-- A stored, possibly partially-shaped layout record (`Partial<BlockLayout>`):
each field may be absent (`none`) or hold an arbitrary JSON value. -/
structure StoredLayout where
  x : Option JsonValue := none
  y : Option JsonValue := none
  width : Option JsonValue := none
  height : Option JsonValue := none
  z : Option JsonValue := none
  deriving DecidableEq, Repr

/-- One `typeof layout?.f === "number" ? layout.f : fallback.f` field check. -/
def numOrDefault (v : Option JsonValue) (fallback : ℚ) : ℚ :=
  match v with
  | some (JsonValue.num q) => q
  | _ => fallback

/-- `sanitizeLayout` from `src/app/page.tsx`: field-by-field numeric check
with per-field fallback. -/
def sanitizeLayout (layout : Option StoredLayout) (fallback : BlockLayout) : BlockLayout :=
  { x := numOrDefault (layout.bind StoredLayout.x) fallback.x
    y := numOrDefault (layout.bind StoredLayout.y) fallback.y
    width := numOrDefault (layout.bind StoredLayout.width) fallback.width
    height := numOrDefault (layout.bind StoredLayout.height) fallback.height
    z := numOrDefault (layout.bind StoredLayout.z) fallback.z }

/-- `createDefaultLayouts` from `src/app/page.tsx`. -/
def createDefaultLayouts : BlockLayouts :=
  let todosLayout : BlockLayout := { x := 48, y := 48, width := 520, height := 660, z := 1 }
  let detailLayout : BlockLayout :=
    { x := todosLayout.x + todosLayout.width + 32, y := todosLayout.y,
      width := 420, height := 520, z := 2 }
  { todos := todosLayout, todoDetails := detailLayout }

/-- What `window.localStorage.getItem(STORAGE_KEY)` + `JSON.parse` can yield:
no entry (`missing`), a string `JSON.parse` throws on (`malformed`), or a
parse result, from which only the `todos` / `todoDetails` keys are read
(anything non-object simply has neither key). -/
inductive StoredData where
  | missing
  | malformed
  | parsed (todos : Option StoredLayout) (todoDetails : Option StoredLayout)

/-- `loadLayouts` from `src/app/page.tsx`: defaults when nothing is stored or
parsing throws, otherwise each block sanitized against its default. -/
def loadLayouts (stored : StoredData) : BlockLayouts :=
  match stored with
  | .missing => createDefaultLayouts
  | .malformed => createDefaultLayouts
  | .parsed todos todoDetails =>
    { todos := sanitizeLayout todos createDefaultLayouts.todos
      todoDetails := sanitizeLayout todoDetails createDefaultLayouts.todoDetails }

/-- The stored record a block id selects in `loadLayouts` (`parsed?.[blockId]`). -/
def storedFieldFor (stored : StoredData) (id : PageBlockId) : Option StoredLayout :=
  match stored with
  | .parsed todos todoDetails =>
    match id with
    | .todos => todos
    | .todoDetails => todoDetails
  | _ => none

/-- Specification predicate for one field of a loaded layout: `r` is taken
from the stored value when that value is numeric, and falls back to the
default otherwise. -/
def FieldFromStored (v : Option JsonValue) (dflt r : ℚ) : Prop :=
  (∀ q, v = some (JsonValue.num q) → r = q) ∧
  ((∀ q, v ≠ some (JsonValue.num q)) → r = dflt)

/-- `WorkspaceItem` from `src/features/todos/types/workspace.ts`. -/
structure WorkspaceItem where
  projectId : Int
  projectName : String
  todosLayout : BlockLayout
  detailsLayout : BlockLayout
  selectedTodoId : Option Int
  deriving DecidableEq, Repr

/-- `WorkspaceState`: `items` models the `Record<number, WorkspaceItem>` as a
lookup function, `orderedProjectIds` the id array. -/
structure WorkspaceState where
  items : Int → Option WorkspaceItem
  orderedProjectIds : List Int

/-- `WorkspaceItemUpdate = Partial<Omit<WorkspaceItem, "projectId">>`: a field
is `none` when absent (`undefined`).  `selectedTodoId` may be present and
null, hence the nested option. -/
structure WorkspaceItemUpdate where
  projectName : Option String := none
  todosLayout : Option BlockLayout := none
  detailsLayout : Option BlockLayout := none
  selectedTodoId : Option (Option Int) := none

/-- `addWorkspaceItem`: insert (or overwrite) the item; append the id to
`orderedProjectIds` only when not already present. -/
def addWorkspaceItem (state : WorkspaceState) (item : WorkspaceItem) : WorkspaceState :=
  { items := fun id => if id = item.projectId then some item else state.items id
    orderedProjectIds :=
      if item.projectId ∈ state.orderedProjectIds then state.orderedProjectIds
      else state.orderedProjectIds ++ [item.projectId] }

/-- The `nextItem` object built inside `updateWorkspaceItem`: each provided
field replaces the current one (`updates.f !== undefined ? updates.f : current.f`). -/
def mergeWorkspaceItem (current : WorkspaceItem) (updates : WorkspaceItemUpdate) :
    WorkspaceItem :=
  { projectId := current.projectId
    projectName := updates.projectName.getD current.projectName
    todosLayout := updates.todosLayout.getD current.todosLayout
    detailsLayout := updates.detailsLayout.getD current.detailsLayout
    selectedTodoId := updates.selectedTodoId.getD current.selectedTodoId }

/-- The `hasChanged` test of `updateWorkspaceItem` (`areLayoutsEqual` is
field-wise equality of layouts, which is structural equality here). -/
def hasWorkspaceItemChanged (current nextItem : WorkspaceItem) : Prop :=
  current.projectName ≠ nextItem.projectName ∨
  current.selectedTodoId ≠ nextItem.selectedTodoId ∨
  current.todosLayout ≠ nextItem.todosLayout ∨
  current.detailsLayout ≠ nextItem.detailsLayout

instance (a b : WorkspaceItem) : Decidable (hasWorkspaceItemChanged a b) := by
  unfold hasWorkspaceItemChanged
  infer_instance

/-- `updateWorkspaceItem`: no-op for an unknown id; merge the provided fields;
return the state object unchanged when nothing actually changed. -/
def updateWorkspaceItem (state : WorkspaceState) (projectId : Int)
    (updates : WorkspaceItemUpdate) : WorkspaceState :=
  match state.items projectId with
  | none => state
  | some current =>
    if hasWorkspaceItemChanged current (mergeWorkspaceItem current updates) then
      { items := fun id =>
          if id = projectId then some (mergeWorkspaceItem current updates)
          else state.items id
        orderedProjectIds := state.orderedProjectIds }
    else state

/-- `removeWorkspaceItem`: no-op for an unknown id; otherwise drop the item
and filter the id out of `orderedProjectIds`. -/
def removeWorkspaceItem (state : WorkspaceState) (projectId : Int) : WorkspaceState :=
  match state.items projectId with
  | none => state
  | some _ =>
    { items := fun id => if id = projectId then none else state.items id
      orderedProjectIds := state.orderedProjectIds.filter (fun id => id ≠ projectId) }

/-- The documented invariant of `WorkspaceState`: ids and items correspond in
both directions and the order list has no duplicates. -/
def WorkspaceInvariant (state : WorkspaceState) : Prop :=
  (∀ id ∈ state.orderedProjectIds, (state.items id).isSome) ∧
  (∀ id, (state.items id).isSome → id ∈ state.orderedProjectIds) ∧
  state.orderedProjectIds.Nodup

/-- A concrete page state for witnesses: default layouts, nothing focused,
no remembered pre-focus layouts. -/
def samplePageState : PageState :=
  { blockLayouts := createDefaultLayouts
    focusedBlockId := none
    previousLayouts := fun _ => none }

/-- The initial multi-project workspace state (the canvas starts empty). -/
def emptyWorkspaceState : WorkspaceState :=
  { items := fun _ => none
    orderedProjectIds := [] }

/-- A concrete workspace item for witnesses. -/
def sampleWorkspaceItem : WorkspaceItem :=
  { projectId := 1
    projectName := "Alpha"
    todosLayout := ⟨48, 48, 520, 660, 1⟩
    detailsLayout := ⟨600, 48, 420, 520, 2⟩
    selectedTodoId := none }

/-! ## Helper lemmas about `clamp` -/

theorem clamp_le_hi (v lo hi : ℚ) : clamp v lo hi ≤ hi :=
  min_le_right _ _

theorem lo_le_clamp (v lo hi : ℚ) (h : lo ≤ hi) : lo ≤ clamp v lo hi :=
  le_min (le_max_right _ _) h

theorem clamp_idem (v lo hi : ℚ) : clamp (clamp v lo hi) lo hi = clamp v lo hi := by
  unfold clamp
  rcases le_total (max v lo) hi with h | h
  · rw [min_eq_left h, max_eq_left (le_max_right v lo), min_eq_left h]
  · rw [min_eq_right h]
    rcases le_total lo hi with h2 | h2
    · rw [max_eq_left h2, min_self]
    · rw [max_eq_right h2, min_eq_right h2]

/-! ## C1: the directional placements never overlap the list block -/

theorem attemptRight_no_overlap (t : BlockLayout) (d : Option BlockLayout) (W H : ℚ)
    (p : BlockRect) (h : attemptRight t d W H = some p) :
    ¬ rectsIntersect p (listRect t) := by
  simp only [attemptRight] at h
  split at h
  · simp at h
  · split at h
    · simp at h
    · rw [Option.some.injEq] at h
      subst h
      rintro ⟨h1, -, -, -⟩
      simp only [listRect] at h1
      linarith

theorem attemptLeft_no_overlap (t : BlockLayout) (d : Option BlockLayout) (W H : ℚ)
    (p : BlockRect) (h : attemptLeft t d W H = some p) :
    ¬ rectsIntersect p (listRect t) := by
  simp only [attemptLeft] at h
  split at h
  · simp at h
  · split at h
    · simp at h
    · rw [Option.some.injEq] at h
      subst h
      rintro ⟨-, h2, -, -⟩
      simp only [listRect] at h2
      linarith

theorem attemptBelow_no_overlap (t : BlockLayout) (d : Option BlockLayout) (W H : ℚ)
    (p : BlockRect) (h : attemptBelow t d W H = some p) :
    ¬ rectsIntersect p (listRect t) := by
  simp only [attemptBelow] at h
  split at h
  · simp at h
  · split at h
    · simp at h
    · rw [Option.some.injEq] at h
      subst h
      rintro ⟨-, -, h3, -⟩
      simp only [listRect] at h3
      linarith

theorem attemptAbove_no_overlap (t : BlockLayout) (d : Option BlockLayout) (W H : ℚ)
    (p : BlockRect) (h : attemptAbove t d W H = some p) :
    ¬ rectsIntersect p (listRect t) := by
  simp only [attemptAbove] at h
  split at h
  · simp at h
  · split at h
    · simp at h
    · rw [Option.some.injEq] at h
      subst h
      rintro ⟨-, -, -, h4⟩
      simp only [listRect] at h4
      linarith

/-- C1.  For every list-block rectangle, previous details layout and container
bounds with enough room in at least one direction — i.e. at least one of the
four directional attempts (right, left, below, above) succeeds —
`computeDetailBlockPlacement` returns a rectangle that does not intersect the
list-block rectangle. -/
theorem computeDetailBlockPlacement_no_overlap (t : BlockLayout) (d : Option BlockLayout)
    (W H : ℚ)
    (h : (attemptRight t d W H).isSome = true ∨ (attemptLeft t d W H).isSome = true ∨
      (attemptBelow t d W H).isSome = true ∨ (attemptAbove t d W H).isSome = true) :
    ¬ rectsIntersect (computeDetailBlockPlacement t d W H) (listRect t) := by
  unfold computeDetailBlockPlacement
  rcases hR : attemptRight t d W H with _ | p
  · rcases hL : attemptLeft t d W H with _ | p
    · rcases hB : attemptBelow t d W H with _ | p
      · rcases hA : attemptAbove t d W H with _ | p
        · rcases h with h | h | h | h <;>
            simp only [hR, hL, hB, hA, Option.isSome_none] at h <;> cases h
        · simp only [hR, hL, hB, hA]
          exact attemptAbove_no_overlap t d W H p hA
      · simp only [hR, hL, hB]
        exact attemptBelow_no_overlap t d W H p hB
    · simp only [hR, hL]
      exact attemptLeft_no_overlap t d W H p hL
  · simp only [hR]
    exact attemptRight_no_overlap t d W H p hR

/-- C1 witness: the spec's concrete scenario (list block `{48, 48, 520, 660}`,
container 1200×800) has room to the right, and the placement avoids the list
rectangle. -/
theorem computeDetailBlockPlacement_no_overlap_witness :
    ((attemptRight ⟨48, 48, 520, 660, 1⟩ none 1200 800).isSome = true ∨
      (attemptLeft ⟨48, 48, 520, 660, 1⟩ none 1200 800).isSome = true ∨
      (attemptBelow ⟨48, 48, 520, 660, 1⟩ none 1200 800).isSome = true ∨
      (attemptAbove ⟨48, 48, 520, 660, 1⟩ none 1200 800).isSome = true) ∧
    ¬ rectsIntersect (computeDetailBlockPlacement ⟨48, 48, 520, 660, 1⟩ none 1200 800)
      (listRect ⟨48, 48, 520, 660, 1⟩) := by
  have h : (attemptRight (⟨48, 48, 520, 660, 1⟩ : BlockLayout) none 1200 800).isSome = true ∨
      (attemptLeft (⟨48, 48, 520, 660, 1⟩ : BlockLayout) none 1200 800).isSome = true ∨
      (attemptBelow (⟨48, 48, 520, 660, 1⟩ : BlockLayout) none 1200 800).isSome = true ∨
      (attemptAbove (⟨48, 48, 520, 660, 1⟩ : BlockLayout) none 1200 800).isSome = true :=
    Or.inl (by
      norm_num [attemptRight, preferredWidth, preferredHeight,
        effectiveMinWidth, effectiveMinHeight, clamp])
  exact ⟨h, computeDetailBlockPlacement_no_overlap _ _ _ _ h⟩

/-! ## C10: the two `computeDetailBlockPlacement` implementations agree -/

theorem centeredFallback_eq (d : Option BlockLayout) (W H : ℚ) :
    centeredFallback d W H = centeredFallbackWPI d W H := by
  have hw : clamp (preferredWidth d W) (effectiveMinWidth W)
      (max (effectiveMinWidth W) (W - 64)) = preferredWidth d W := by
    simp only [preferredWidth]
    exact clamp_idem _ _ _
  have hh : clamp (preferredHeight d H) (effectiveMinHeight H)
      (max (effectiveMinHeight H) (H - 64)) = preferredHeight d H := by
    simp only [preferredHeight]
    exact clamp_idem _ _ _
  simp only [centeredFallback, centeredFallbackWPI, hw, hh]

/-- C10.  The placement helper in `src/app/page.tsx` and the one in
`WorkspaceProjectItem.tsx` return equal rectangles for every input: the only
textual difference is the page version's extra re-clamping of the fallback
width/height, and `clamp` is idempotent so the re-clamp is the identity. -/
theorem computeDetailBlockPlacementWPI_eq (t : BlockLayout) (d : Option BlockLayout)
    (W H : ℚ) :
    computeDetailBlockPlacementWPI t d W H = computeDetailBlockPlacement t d W H := by
  unfold computeDetailBlockPlacement computeDetailBlockPlacementWPI
  rcases attemptRight t d W H with _ | p
  · rcases attemptLeft t d W H with _ | p
    · rcases attemptBelow t d W H with _ | p
      · rcases attemptAbove t d W H with _ | p
        · exact (centeredFallback_eq d W H).symm
        · rfl
      · rfl
    · rfl
  · rfl

/-! ## C2: containment within the padded container -/

theorem effectiveMinWidth_le (W : ℚ) (hW : 304 ≤ W) : effectiveMinWidth W ≤ W - 64 := by
  unfold effectiveMinWidth
  exact max_le (min_le_right _ _) (by linarith)

theorem effectiveMinHeight_le (H : ℚ) (hH : 384 ≤ H) : effectiveMinHeight H ≤ H - 64 := by
  unfold effectiveMinHeight
  exact max_le (min_le_right _ _) (by linarith)

theorem preferredWidth_le (d : Option BlockLayout) (W : ℚ) (hW : 304 ≤ W) :
    preferredWidth d W ≤ W - 64 := by
  have h := effectiveMinWidth_le W hW
  have h2 : preferredWidth d W ≤ max (effectiveMinWidth W) (W - 64) := clamp_le_hi _ _ _
  rwa [max_eq_right h] at h2

theorem preferredHeight_le (d : Option BlockLayout) (H : ℚ) (hH : 384 ≤ H) :
    preferredHeight d H ≤ H - 64 := by
  have h := effectiveMinHeight_le H hH
  have h2 : preferredHeight d H ≤ max (effectiveMinHeight H) (H - 64) := clamp_le_hi _ _ _
  rwa [max_eq_right h] at h2

theorem attemptRight_within (t : BlockLayout) (d : Option BlockLayout) (W H : ℚ)
    (p : BlockRect) (hH : 384 ≤ H) (htx : 32 ≤ t.x) (htw : 0 ≤ t.width)
    (h : attemptRight t d W H = some p) :
    rectWithinPadding p W H := by
  simp only [attemptRight] at h
  split at h
  · simp at h
  · split at h
    · simp at h
    · rw [Option.some.injEq] at h
      subst h
      have hph := preferredHeight_le d H hH
      simp only [rectWithinPadding]
      refine ⟨by linarith, ?_, lo_le_clamp _ _ _ (by linarith), ?_⟩
      · have := min_le_right (preferredWidth d W) (W - 32 - (t.x + t.width + 24))
        linarith
      · have := min_le_right (preferredHeight d H)
          (H - 32 - clamp t.y 32 (H - preferredHeight d H - 32))
        linarith

theorem attemptLeft_within (t : BlockLayout) (d : Option BlockLayout) (W H : ℚ)
    (p : BlockRect) (hH : 384 ≤ H) (htw : 0 ≤ t.width) (htxr : t.x + t.width ≤ W - 32)
    (h : attemptLeft t d W H = some p) :
    rectWithinPadding p W H := by
  simp only [attemptLeft] at h
  split at h
  · simp at h
  · split at h
    · simp at h
    · rw [Option.some.injEq] at h
      subst h
      have hph := preferredHeight_le d H hH
      simp only [rectWithinPadding]
      refine ⟨?_, ?_, lo_le_clamp _ _ _ (by linarith), ?_⟩
      · have := min_le_right (preferredWidth d W) (t.x - 32 - 24)
        linarith
      · have := min_le_right (preferredWidth d W) (t.x - 32 - 24)
        linarith
      · have := min_le_right (preferredHeight d H)
          (H - 32 - clamp t.y 32 (H - preferredHeight d H - 32))
        linarith

theorem attemptBelow_within (t : BlockLayout) (d : Option BlockLayout) (W H : ℚ)
    (p : BlockRect) (hW : 304 ≤ W) (hty : 32 ≤ t.y) (hth : 0 ≤ t.height)
    (h : attemptBelow t d W H = some p) :
    rectWithinPadding p W H := by
  simp only [attemptBelow] at h
  split at h
  · simp at h
  · split at h
    · simp at h
    · rw [Option.some.injEq] at h
      subst h
      have hpw := preferredWidth_le d W hW
      simp only [rectWithinPadding]
      refine ⟨lo_le_clamp _ _ _ (by linarith), ?_, by linarith, ?_⟩
      · have := min_le_right (preferredWidth d W)
          (W - 32 - clamp t.x 32 (W - preferredWidth d W - 32))
        linarith
      · have := min_le_right (preferredHeight d H)
          (H - 32 - (t.y + t.height + 24))
        linarith

theorem attemptAbove_within (t : BlockLayout) (d : Option BlockLayout) (W H : ℚ)
    (p : BlockRect) (hW : 304 ≤ W) (hth : 0 ≤ t.height) (htyb : t.y + t.height ≤ H - 32)
    (h : attemptAbove t d W H = some p) :
    rectWithinPadding p W H := by
  simp only [attemptAbove] at h
  split at h
  · simp at h
  · split at h
    · simp at h
    · rw [Option.some.injEq] at h
      subst h
      have hpw := preferredWidth_le d W hW
      simp only [rectWithinPadding]
      refine ⟨lo_le_clamp _ _ _ (by linarith), ?_, ?_, ?_⟩
      · have := min_le_right (preferredWidth d W)
          (W - 32 - clamp t.x 32 (W - preferredWidth d W - 32))
        linarith
      · have := min_le_right (preferredHeight d H) (t.y - 32 - 24)
        linarith
      · have := min_le_right (preferredHeight d H) (t.y - 32 - 24)
        linarith

theorem centeredFallback_within (d : Option BlockLayout) (W H : ℚ)
    (hW : 304 ≤ W) (hH : 384 ≤ H) :
    rectWithinPadding (centeredFallback d W H) W H := by
  have hpw := preferredWidth_le d W hW
  have hph := preferredHeight_le d H hH
  have hfw : clamp (preferredWidth d W) (effectiveMinWidth W)
      (max (effectiveMinWidth W) (W - 64)) = preferredWidth d W := by
    simp only [preferredWidth]
    exact clamp_idem _ _ _
  have hfh : clamp (preferredHeight d H) (effectiveMinHeight H)
      (max (effectiveMinHeight H) (H - 64)) = preferredHeight d H := by
    simp only [preferredHeight]
    exact clamp_idem _ _ _
  have hxmax : max (32 : ℚ) (W - preferredWidth d W - 32) = W - preferredWidth d W - 32 :=
    max_eq_right (by linarith)
  have hymax : max (32 : ℚ) (H - preferredHeight d H - 32) = H - preferredHeight d H - 32 :=
    max_eq_right (by linarith)
  simp only [centeredFallback, hfw, hfh, hxmax, hymax, rectWithinPadding]
  refine ⟨lo_le_clamp _ _ _ (by linarith), ?_, lo_le_clamp _ _ _ (by linarith), ?_⟩
  · have := clamp_le_hi ((W - preferredWidth d W) / 2) 32 (W - preferredWidth d W - 32)
    linarith
  · have := clamp_le_hi ((H - preferredHeight d H) / 2) 32 (H - preferredHeight d H - 32)
    linarith

/-- C2 counterexample: for the list rectangle `{x: -1000, y: 48, width: 100,
height: 100}` (partly outside the container) and container 1200×800 — far
larger than the minimum-size floor — the placement lands at `x = -876`,
outside `[32, 1168]`, so the claim as stated (for every list rectangle and
container bounds) is false. -/
theorem computeDetailBlockPlacement_within_counterexample :
    ¬ rectWithinPadding
      (computeDetailBlockPlacement ⟨-1000, 48, 100, 100, 1⟩ none 1200 800) 1200 800 := by
  norm_num [computeDetailBlockPlacement, attemptRight, rectWithinPadding,
    preferredWidth, preferredHeight, effectiveMinWidth, effectiveMinHeight, clamp]

/-- C2 (amended).  Whenever the list rectangle has nonnegative size and lies
within the padded container bounds, and the container is at least the
minimum-size floor plus padding (`304 × 384 = (240, 320) + 2 × 32`),
`computeDetailBlockPlacement` returns a rectangle fully inside
`[32, W-32] × [32, H-32]`. -/
theorem computeDetailBlockPlacement_within (t : BlockLayout) (d : Option BlockLayout)
    (W H : ℚ) (hW : 304 ≤ W) (hH : 384 ≤ H)
    (htx : 32 ≤ t.x) (hty : 32 ≤ t.y) (htw : 0 ≤ t.width) (hth : 0 ≤ t.height)
    (htxr : t.x + t.width ≤ W - 32) (htyb : t.y + t.height ≤ H - 32) :
    rectWithinPadding (computeDetailBlockPlacement t d W H) W H := by
  unfold computeDetailBlockPlacement
  rcases hR : attemptRight t d W H with _ | p
  · rcases hL : attemptLeft t d W H with _ | p
    · rcases hB : attemptBelow t d W H with _ | p
      · rcases hA : attemptAbove t d W H with _ | p
        · exact centeredFallback_within d W H hW hH
        · exact attemptAbove_within t d W H p hW hth htyb hA
      · exact attemptBelow_within t d W H p hW hty hth hB
    · exact attemptLeft_within t d W H p hH htw htxr hL
  · exact attemptRight_within t d W H p hH htx htw hR

/-- C2 witness: the spec's concrete scenario satisfies every hypothesis of the
amended containment theorem. -/
theorem computeDetailBlockPlacement_within_witness :
    rectWithinPadding (computeDetailBlockPlacement ⟨48, 48, 520, 660, 1⟩ none 1200 800)
      1200 800 :=
  computeDetailBlockPlacement_within ⟨48, 48, 520, 660, 1⟩ none 1200 800
    (show (304 : ℚ) ≤ 1200 by norm_num) (show (384 : ℚ) ≤ 800 by norm_num)
    (show (32 : ℚ) ≤ 48 by norm_num) (show (32 : ℚ) ≤ 48 by norm_num)
    (show (0 : ℚ) ≤ 520 by norm_num) (show (0 : ℚ) ≤ 660 by norm_num)
    (show (48 : ℚ) + 520 ≤ 1200 - 32 by norm_num)
    (show (48 : ℚ) + 660 ≤ 800 - 32 by norm_num)

/-! ## C3: focus round-trip -/

theorem BlockLayouts.get_set_same (l : BlockLayouts) (id : PageBlockId) (v : BlockLayout) :
    (l.set id v).get id = v := by
  cases id <;> rfl

/-- C3.  Starting from any state in which block `id` is not the focused block,
toggling focus on `id` twice (enter focus, then exit focus) restores the exact
pre-focus rectangle — x, y, width and height are unchanged; only `z` may
differ. -/
theorem toggleFocus_roundTrip (s : PageState) (id : PageBlockId) (W H : ℚ)
    (h : s.focusedBlockId ≠ some id) :
    ((toggleFocus (toggleFocus s id W H) id W H).blockLayouts.get id).x =
      (s.blockLayouts.get id).x ∧
    ((toggleFocus (toggleFocus s id W H) id W H).blockLayouts.get id).y =
      (s.blockLayouts.get id).y ∧
    ((toggleFocus (toggleFocus s id W H) id W H).blockLayouts.get id).width =
      (s.blockLayouts.get id).width ∧
    ((toggleFocus (toggleFocus s id W H) id W H).blockLayouts.get id).height =
      (s.blockLayouts.get id).height := by
  have h1 : toggleFocus s id W H =
      { blockLayouts := s.blockLayouts.set id
          { computeFocusLayout (s.blockLayouts.get id) W H with
            z := getNextZ s.blockLayouts.values }
        focusedBlockId := some id
        previousLayouts := fun b => if b = id then some (s.blockLayouts.get id)
          else s.previousLayouts b } := by
    rw [toggleFocus, if_neg h]
  rw [h1]
  rw [toggleFocus]
  simp only [if_pos rfl, if_true]
  simp [BlockLayouts.get_set_same, Option.getD_some]

/-- C3 witness: toggling focus twice on the todos block of the default state
restores its rectangle. -/
theorem toggleFocus_roundTrip_witness :
    ((toggleFocus (toggleFocus samplePageState .todos 1200 800) .todos 1200 800).blockLayouts.get
        .todos).x = ((samplePageState.blockLayouts.get .todos)).x ∧
    ((toggleFocus (toggleFocus samplePageState .todos 1200 800) .todos 1200 800).blockLayouts.get
        .todos).y = ((samplePageState.blockLayouts.get .todos)).y ∧
    ((toggleFocus (toggleFocus samplePageState .todos 1200 800) .todos 1200 800).blockLayouts.get
        .todos).width = ((samplePageState.blockLayouts.get .todos)).width ∧
    ((toggleFocus (toggleFocus samplePageState .todos 1200 800) .todos 1200 800).blockLayouts.get
        .todos).height = ((samplePageState.blockLayouts.get .todos)).height :=
  toggleFocus_roundTrip samplePageState .todos 1200 800 (by decide)

/-! ## C6: `getNextZ` -/

theorem le_foldl_maxZ (l : List BlockLayout) (a : ℚ) :
    a ≤ l.foldl (fun highest current => max highest current.z) a := by
  induction l generalizing a with
  | nil => simp
  | cons hd tl ih =>
    rw [List.foldl_cons]
    exact le_trans (le_max_left a hd.z) (ih _)

theorem mem_z_le_foldl (l : List BlockLayout) (a : ℚ) (la : BlockLayout) (hla : la ∈ l) :
    la.z ≤ l.foldl (fun highest current => max highest current.z) a := by
  induction l generalizing a with
  | nil => cases hla
  | cons hd tl ih =>
    rw [List.foldl_cons]
    rcases List.mem_cons.mp hla with h | h
    · subst h
      exact le_trans (le_max_right a la.z) (le_foldl_maxZ tl _)
    · exact ih _ h

theorem foldl_max_eq_seed_or_mem (l : List BlockLayout) (a : ℚ) :
    l.foldl (fun highest current => max highest current.z) a = a ∨
      ∃ la ∈ l, l.foldl (fun highest current => max highest current.z) a = la.z := by
  induction l generalizing a with
  | nil => exact Or.inl rfl
  | cons hd tl ih =>
    rw [List.foldl_cons]
    rcases ih (max a hd.z) with h | ⟨la, hmem, heq⟩
    · rcases max_choice a hd.z with hm | hm
      · exact Or.inl (by rw [h, hm])
      · exact Or.inr ⟨hd, List.mem_cons_self _ _, by rw [h, hm]⟩
    · exact Or.inr ⟨la, List.mem_cons_of_mem _ hmem, heq⟩

/-- C6 counterexample: for the one-element collection whose layout has
`z = -5`, the maximum z present is `-5`, yet `getNextZ` returns `1`
(the `reduce` is seeded with `0`), not `-5 + 1`. -/
theorem getNextZ_counterexample :
    getNextZ [⟨0, 0, 0, 0, -5⟩] ≠ -5 + 1 := by
  norm_num [getNextZ, List.foldl_cons, List.foldl_nil]

/-- C6 (amended).  For every collection of block layouts whose z values are
all nonnegative (which the engine maintains: z values start at 1 and only
grow), `getNextZ` returns one greater than the maximum z present, and it
returns 1 on the empty collection.  (In general the code returns
`max(0, max z) + 1`, so the claim fails when every z is negative.) -/
theorem getNextZ_spec (layouts : List BlockLayout)
    (h : ∀ la ∈ layouts, 0 ≤ la.z) :
    (layouts = [] → getNextZ layouts = 1) ∧
    (∀ la ∈ layouts, la.z + 1 ≤ getNextZ layouts) ∧
    (layouts ≠ [] → ∃ la ∈ layouts, getNextZ layouts = la.z + 1) := by
  refine ⟨?_, ?_, ?_⟩
  · intro he
    subst he
    norm_num [getNextZ, List.foldl_nil]
  · intro la hla
    have := mem_z_le_foldl layouts 0 la hla
    unfold getNextZ
    linarith
  · intro hne
    rcases foldl_max_eq_seed_or_mem layouts 0 with h0 | ⟨la, hmem, heq⟩
    · rcases layouts with _ | ⟨hd, tl⟩
      · exact absurd rfl hne
      · refine ⟨hd, List.mem_cons_self _ _, ?_⟩
        have h1 : hd.z ≤ 0 := by
          rw [← h0]
          exact mem_z_le_foldl _ 0 hd (List.mem_cons_self _ _)
        have h2 : (0 : ℚ) ≤ hd.z := h hd (List.mem_cons_self _ _)
        have h3 : hd.z = 0 := le_antisymm h1 h2
        unfold getNextZ
        rw [h0, h3]
    · exact ⟨la, hmem, by unfold getNextZ; rw [heq]⟩

/-- C6 witness: on a two-layout collection with z values 1 and 2, `getNextZ`
exceeds the z of the topmost layout by one. -/
theorem getNextZ_spec_witness :
    (⟨0, 0, 0, 0, 2⟩ : BlockLayout).z + 1 ≤
      getNextZ [⟨0, 0, 0, 0, 1⟩, ⟨0, 0, 0, 0, 2⟩] := by
  have h : ∀ la ∈ [(⟨0, 0, 0, 0, 1⟩ : BlockLayout), ⟨0, 0, 0, 0, 2⟩], (0 : ℚ) ≤ la.z := by
    intro la hla
    rcases List.mem_cons.mp hla with h1 | h1
    · rw [h1]; norm_num
    · rw [List.mem_singleton.mp h1]; norm_num
  exact (getNextZ_spec _ h).2.1 _ (List.mem_cons_of_mem _ (List.mem_singleton.mpr rfl))

/-! ## C7: `raiseBlock` -/

theorem z_le_highestZ (layouts : BlockLayouts) (id : PageBlockId) :
    (layouts.get id).z ≤ highestZ layouts.values := by
  cases id
  · exact mem_z_le_foldl _ 0 _ (List.mem_cons_self _ _)
  · exact mem_z_le_foldl _ 0 _ (List.mem_cons_of_mem _ (List.mem_singleton.mpr rfl))

/-- C7 counterexample: in the state with z values −3 (todos) and −5
(details), the todos block is already the topmost — its z, −3, is the
maximum z present among the layouts — and yet `raiseBlock` is not a no-op:
the `reduce` computing `highest` is seeded with 0, so `highest = 0 ≠ −3` and
the block is re-raised to z = 1.  Hence the claim as stated, with "the
current maximum" meaning the maximum z among the blocks, is false. -/
theorem raiseBlock_counterexample :
    ((⟨⟨0, 0, 0, 0, -3⟩, ⟨0, 0, 0, 0, -5⟩⟩ : BlockLayouts).get .todos).z =
      max ((⟨⟨0, 0, 0, 0, -3⟩, ⟨0, 0, 0, 0, -5⟩⟩ : BlockLayouts).get .todos).z
        ((⟨⟨0, 0, 0, 0, -3⟩, ⟨0, 0, 0, 0, -5⟩⟩ : BlockLayouts).get .todoDetails).z ∧
    raiseBlock ⟨⟨0, 0, 0, 0, -3⟩, ⟨0, 0, 0, 0, -5⟩⟩ .todos ≠
      ⟨⟨0, 0, 0, 0, -3⟩, ⟨0, 0, 0, 0, -5⟩⟩ := by
  constructor
  · norm_num [BlockLayouts.get]
  · norm_num [raiseBlock, BlockLayouts.get, BlockLayouts.set, BlockLayouts.values, highestZ,
      List.foldl_cons, List.foldl_nil]

/-- C7 (amended).  `raiseBlock` is a no-op — it returns the state object
unchanged — exactly when the block's z equals the 0-seeded fold maximum
`max(0, max z)` the code computes; otherwise it assigns the block
`highest + 1`, which is strictly greater than every other block's z in the
result.  When every z is nonnegative (as the engine maintains: z values start
at 1 and only grow), the seeded fold equals the maximum z present, and the
no-op condition coincides with the claim's "already the topmost". -/
theorem raiseBlock_spec (layouts : BlockLayouts) (id : PageBlockId) :
    ((layouts.get id).z = highestZ layouts.values → raiseBlock layouts id = layouts) ∧
    ((layouts.get id).z ≠ highestZ layouts.values →
      ((raiseBlock layouts id).get id).z = highestZ layouts.values + 1 ∧
      ∀ other : PageBlockId, other ≠ id →
        ((raiseBlock layouts id).get other).z < ((raiseBlock layouts id).get id).z) ∧
    (0 ≤ (layouts.get .todos).z →
      highestZ layouts.values =
        max (layouts.get .todos).z (layouts.get .todoDetails).z) := by
  refine ⟨?_, ?_, ?_⟩
  · intro h
    rw [raiseBlock, if_pos h]
  · intro h
    rw [raiseBlock, if_neg h]
    constructor
    · rw [BlockLayouts.get_set_same]
    · intro other hother
      rw [BlockLayouts.get_set_same]
      have hle : (layouts.get other).z ≤ highestZ layouts.values := z_le_highestZ layouts other
      have hsame : ((layouts.set id { layouts.get id with
          z := highestZ layouts.values + 1 }).get other) = layouts.get other := by
        cases id <;> cases other <;> first | rfl | exact absurd rfl hother
      rw [hsame]
      calc (layouts.get other).z ≤ highestZ layouts.values := hle
        _ < highestZ layouts.values + 1 := by linarith
  · intro h
    have h2 : (0 : ℚ) ≤ layouts.todos.z := h
    simp only [highestZ, BlockLayouts.values, List.foldl_cons, List.foldl_nil,
      BlockLayouts.get]
    rw [max_eq_right h2]

/-- C7 witness: with layouts carrying z = 1 (todos) and z = 2 (details),
raising the todos block gives it z = 3, strictly above its sibling. -/
theorem raiseBlock_spec_witness :
    ((raiseBlock ⟨⟨0, 0, 0, 0, 1⟩, ⟨10, 10, 5, 5, 2⟩⟩ .todos).get .todoDetails).z <
      ((raiseBlock ⟨⟨0, 0, 0, 0, 1⟩, ⟨10, 10, 5, 5, 2⟩⟩ .todos).get .todos).z := by
  have h : ((⟨⟨0, 0, 0, 0, 1⟩, ⟨10, 10, 5, 5, 2⟩⟩ : BlockLayouts).get .todos).z ≠
      highestZ (⟨⟨0, 0, 0, 0, 1⟩, ⟨10, 10, 5, 5, 2⟩⟩ : BlockLayouts).values := by
    norm_num [BlockLayouts.get, highestZ, BlockLayouts.values, List.foldl_cons, List.foldl_nil]
  exact ((raiseBlock_spec ⟨⟨0, 0, 0, 0, 1⟩, ⟨10, 10, 5, 5, 2⟩⟩ .todos).2.1 h).2 .todoDetails
    (by decide)

/-! ## C4: the workspace transitions preserve the invariant -/

/-- C4.  For every workspace state satisfying the invariant (ids and items
correspond in both directions, no duplicate ids), each of `addWorkspaceItem`,
`updateWorkspaceItem` and `removeWorkspaceItem` returns a state that still
satisfies it. -/
theorem workspace_ops_preserve_invariant (s : WorkspaceState) (item : WorkspaceItem)
    (pid : Int) (u : WorkspaceItemUpdate) (h : WorkspaceInvariant s) :
    WorkspaceInvariant (addWorkspaceItem s item) ∧
    WorkspaceInvariant (updateWorkspaceItem s pid u) ∧
    WorkspaceInvariant (removeWorkspaceItem s pid) := by
  obtain ⟨hfwd, hbwd, hnodup⟩ := h
  refine ⟨⟨?_, ?_, ?_⟩, ?_, ?_⟩
  · -- add, forward: every ordered id has an item
    intro id hid
    simp only [addWorkspaceItem] at hid ⊢
    by_cases hip : id = item.projectId
    · simp [hip]
    · rw [if_neg hip]
      by_cases hmem : item.projectId ∈ s.orderedProjectIds
      · rw [if_pos hmem] at hid
        exact hfwd id hid
      · rw [if_neg hmem] at hid
        rcases List.mem_append.mp hid with h1 | h1
        · exact hfwd id h1
        · exact absurd (List.mem_singleton.mp h1) hip
  · -- add, backward: every item key is ordered
    intro id hid
    simp only [addWorkspaceItem] at hid ⊢
    by_cases hip : id = item.projectId
    · subst hip
      by_cases hmem : item.projectId ∈ s.orderedProjectIds
      · rw [if_pos hmem]
        exact hmem
      · rw [if_neg hmem]
        exact List.mem_append.mpr (Or.inr (List.mem_singleton.mpr rfl))
    · rw [if_neg hip] at hid
      have hmem2 := hbwd id hid
      by_cases hmem : item.projectId ∈ s.orderedProjectIds
      · rw [if_pos hmem]
        exact hmem2
      · rw [if_neg hmem]
        exact List.mem_append.mpr (Or.inl hmem2)
  · -- add: no duplicates
    simp only [addWorkspaceItem]
    by_cases hmem : item.projectId ∈ s.orderedProjectIds
    · rw [if_pos hmem]
      exact hnodup
    · rw [if_neg hmem]
      exact List.nodup_append.mpr ⟨hnodup, List.nodup_singleton _,
        fun a ha hb => hmem (by rwa [List.mem_singleton.mp hb] at ha)⟩
  · -- update preserves the invariant
    unfold updateWorkspaceItem
    rcases hcur : s.items pid with _ | cur
    · exact ⟨hfwd, hbwd, hnodup⟩
    · show WorkspaceInvariant
        (if hasWorkspaceItemChanged cur (mergeWorkspaceItem cur u) then
          { items := fun id =>
              if id = pid then some (mergeWorkspaceItem cur u) else s.items id
            orderedProjectIds := s.orderedProjectIds }
        else s)
      by_cases hch : hasWorkspaceItemChanged cur (mergeWorkspaceItem cur u)
      · rw [if_pos hch]
        refine ⟨?_, ?_, hnodup⟩
        · intro id hid
          show (if id = pid then some (mergeWorkspaceItem cur u) else s.items id).isSome = true
          by_cases hip : id = pid
          · rw [if_pos hip]
            rfl
          · rw [if_neg hip]
            exact hfwd id hid
        · intro id hid
          show id ∈ s.orderedProjectIds
          by_cases hip : id = pid
          · subst hip
            exact hbwd id (by rw [hcur]; rfl)
          · have hid2 : (if id = pid then some (mergeWorkspaceItem cur u)
                else s.items id).isSome = true := hid
            rw [if_neg hip] at hid2
            exact hbwd id hid2
      · rw [if_neg hch]
        exact ⟨hfwd, hbwd, hnodup⟩
  · -- remove preserves the invariant
    unfold removeWorkspaceItem
    rcases hcur : s.items pid with _ | cur
    · exact ⟨hfwd, hbwd, hnodup⟩
    · show WorkspaceInvariant
        { items := fun id => if id = pid then none else s.items id
          orderedProjectIds := s.orderedProjectIds.filter (fun id => id ≠ pid) }
      refine ⟨?_, ?_, hnodup.filter _⟩
      · intro id hid
        have hmf := List.mem_filter.mp hid
        have hne : id ≠ pid := by simpa using hmf.2
        show (if id = pid then none else s.items id).isSome = true
        rw [if_neg hne]
        exact hfwd id hmf.1
      · intro id hid
        have hid2 : (if id = pid then none else s.items id).isSome = true := hid
        by_cases hip : id = pid
        · rw [if_pos hip] at hid2
          simp at hid2
        · rw [if_neg hip] at hid2
          show id ∈ s.orderedProjectIds.filter (fun id => id ≠ pid)
          exact List.mem_filter.mpr ⟨hbwd id hid2, by simpa using hip⟩

/-- C4 witness: the empty workspace satisfies the invariant, and adding a
concrete item keeps it. -/
theorem workspace_ops_preserve_invariant_witness :
    WorkspaceInvariant emptyWorkspaceState ∧
    WorkspaceInvariant (addWorkspaceItem emptyWorkspaceState sampleWorkspaceItem) := by
  have h : WorkspaceInvariant emptyWorkspaceState := by
    refine ⟨?_, ?_, List.nodup_nil⟩
    · intro id hid
      simp [emptyWorkspaceState] at hid
    · intro id hid
      simp [emptyWorkspaceState] at hid
  exact ⟨h, (workspace_ops_preserve_invariant emptyWorkspaceState sampleWorkspaceItem 1
    ⟨none, none, none, none⟩ h).1⟩

/-! ## C5: no-op updates return the identical state -/

/-- C5.  Updating or removing an unknown project id returns the input state
itself, and updating a known project with an empty update, or with an update
whose provided field values all equal the current ones, also returns the
input state itself (the reference-equality no-op of the source). -/
theorem workspace_noop_updates (s : WorkspaceState) (pid : Int) (u : WorkspaceItemUpdate) :
    (s.items pid = none →
      updateWorkspaceItem s pid u = s ∧ removeWorkspaceItem s pid = s) ∧
    (∀ cur, s.items pid = some cur →
      updateWorkspaceItem s pid ⟨none, none, none, none⟩ = s ∧
      (u.projectName.getD cur.projectName = cur.projectName →
        u.todosLayout.getD cur.todosLayout = cur.todosLayout →
        u.detailsLayout.getD cur.detailsLayout = cur.detailsLayout →
        u.selectedTodoId.getD cur.selectedTodoId = cur.selectedTodoId →
        updateWorkspaceItem s pid u = s)) := by
  constructor
  · intro h
    constructor
    · unfold updateWorkspaceItem
      rw [h]
    · unfold removeWorkspaceItem
      rw [h]
  · intro cur hcur
    have hmerge_empty : mergeWorkspaceItem cur ⟨none, none, none, none⟩ = cur := rfl
    constructor
    · unfold updateWorkspaceItem
      rw [hcur]
      show (if hasWorkspaceItemChanged cur (mergeWorkspaceItem cur ⟨none, none, none, none⟩) then
          { items := fun id =>
              if id = pid then some (mergeWorkspaceItem cur ⟨none, none, none, none⟩)
              else s.items id
            orderedProjectIds := s.orderedProjectIds }
        else s) = s
      have hno : ¬ hasWorkspaceItemChanged cur (mergeWorkspaceItem cur ⟨none, none, none, none⟩) := by
        rw [hmerge_empty]
        simp [hasWorkspaceItemChanged]
      rw [if_neg hno]
    · intro h1 h2 h3 h4
      have hmerge : mergeWorkspaceItem cur u = cur := by
        unfold mergeWorkspaceItem
        rw [h1, h2, h3, h4]
      unfold updateWorkspaceItem
      rw [hcur]
      show (if hasWorkspaceItemChanged cur (mergeWorkspaceItem cur u) then
          { items := fun id =>
              if id = pid then some (mergeWorkspaceItem cur u) else s.items id
            orderedProjectIds := s.orderedProjectIds }
        else s) = s
      have hno : ¬ hasWorkspaceItemChanged cur (mergeWorkspaceItem cur u) := by
        rw [hmerge]
        simp [hasWorkspaceItemChanged]
      rw [if_neg hno]

/-- C5 witness: on the empty workspace, updating or removing project 1 is the
identity. -/
theorem workspace_noop_updates_witness :
    updateWorkspaceItem emptyWorkspaceState 1 ⟨none, none, none, none⟩ = emptyWorkspaceState ∧
    removeWorkspaceItem emptyWorkspaceState 1 = emptyWorkspaceState :=
  (workspace_noop_updates emptyWorkspaceState 1 ⟨none, none, none, none⟩).1 rfl

/-! ## C8: the focus layout -/

/-- C8 counterexample: for a 400-wide container the focused width is
`min(max(300, 520), max(420, 400-64)) = 420`, which exceeds
`containerWidth − 2×padding = 336` — the claim's cap (and its 520 minimum)
fail on containers smaller than the cap floor. -/
theorem computeFocusLayout_counterexample :
    ¬ ((computeFocusLayout ⟨0, 0, 300, 300, 1⟩ 400 800).width ≤ 400 - 2 * 32) := by
  norm_num [computeFocusLayout, clamp]

/-- C8 (amended).  `computeFocusLayout` grows width/height to at least
`min(520, maxW)` / `min(580, maxH)` and caps them at `maxW = max(420, W−64)`
and `maxH = max(480, H−64)` (so the cap itself is floored at 420×480, and the
520×580 minimum is only reached when the container allows); the position is
the centered position clamped to at least the padding and, whenever the block
fits, to at most `containerSize − size − padding`. -/
theorem computeFocusLayout_spec (layout : BlockLayout) (W H : ℚ) :
    min 520 (max 420 (W - 64)) ≤ (computeFocusLayout layout W H).width ∧
    (computeFocusLayout layout W H).width ≤ max 420 (W - 64) ∧
    min 580 (max 480 (H - 64)) ≤ (computeFocusLayout layout W H).height ∧
    (computeFocusLayout layout W H).height ≤ max 480 (H - 64) ∧
    (computeFocusLayout layout W H).x =
      clamp ((W - (computeFocusLayout layout W H).width) / 2) 32
        (max 32 (W - (computeFocusLayout layout W H).width - 32)) ∧
    (computeFocusLayout layout W H).y =
      clamp ((H - (computeFocusLayout layout W H).height) / 2) 32
        (max 32 (H - (computeFocusLayout layout W H).height - 32)) ∧
    32 ≤ (computeFocusLayout layout W H).x ∧
    (computeFocusLayout layout W H).x + (computeFocusLayout layout W H).width ≤
      max (32 + (computeFocusLayout layout W H).width) (W - 32) ∧
    32 ≤ (computeFocusLayout layout W H).y ∧
    (computeFocusLayout layout W H).y + (computeFocusLayout layout W H).height ≤
      max (32 + (computeFocusLayout layout W H).height) (H - 32) := by
  simp only [computeFocusLayout]
  refine ⟨?_, min_le_right _ _, ?_, min_le_right _ _, trivial, trivial, ?_, ?_, ?_, ?_⟩
  · exact min_le_min (le_max_right _ _) (le_refl _)
  · exact min_le_min (le_max_right _ _) (le_refl _)
  · exact lo_le_clamp _ _ _ (le_max_left _ _)
  · have h := clamp_le_hi
      ((W - min (max layout.width 520) (max 420 (W - 64))) / 2) 32
      (max 32 (W - min (max layout.width 520) (max 420 (W - 64)) - 32))
    have h2 : max (32 : ℚ) (W - min (max layout.width 520) (max 420 (W - 64)) - 32) +
        min (max layout.width 520) (max 420 (W - 64)) =
        max (32 + min (max layout.width 520) (max 420 (W - 64)))
          (W - min (max layout.width 520) (max 420 (W - 64)) - 32 +
            min (max layout.width 520) (max 420 (W - 64))) :=
      (max_add_add_right _ _ _).symm
    have h3 : W - min (max layout.width 520) (max 420 (W - 64)) - 32 +
        min (max layout.width 520) (max 420 (W - 64)) = W - 32 := by ring
    rw [h3] at h2
    linarith
  · exact lo_le_clamp _ _ _ (le_max_left _ _)
  · have h := clamp_le_hi
      ((H - min (max layout.height 580) (max 480 (H - 64))) / 2) 32
      (max 32 (H - min (max layout.height 580) (max 480 (H - 64)) - 32))
    have h2 : max (32 : ℚ) (H - min (max layout.height 580) (max 480 (H - 64)) - 32) +
        min (max layout.height 580) (max 480 (H - 64)) =
        max (32 + min (max layout.height 580) (max 480 (H - 64)))
          (H - min (max layout.height 580) (max 480 (H - 64)) - 32 +
            min (max layout.height 580) (max 480 (H - 64))) :=
      (max_add_add_right _ _ _).symm
    have h3 : H - min (max layout.height 580) (max 480 (H - 64)) - 32 +
        min (max layout.height 580) (max 480 (H - 64)) = H - 32 := by ring
    rw [h3] at h2
    linarith

/-! ## C9: `loadLayouts` tolerates malformed stored data field-by-field -/

theorem numOrDefault_fieldFromStored (v : Option JsonValue) (dflt : ℚ) :
    FieldFromStored v dflt (numOrDefault v dflt) := by
  constructor
  · intro q hq
    rw [hq]
    rfl
  · intro hq
    rcases v with _ | jv
    · rfl
    · rcases jv with q | _
      · exact absurd rfl (hq q)
      · rfl

/-- C9.  For every stored record (missing, malformed, or partially shaped)
and every block, each field of the layout `loadLayouts` produces is taken
from the stored record when it is numeric and falls back to the block's
default otherwise — decided field-by-field, and `loadLayouts` is a total
function (it never throws). -/
theorem loadLayouts_fieldwise (stored : StoredData) (id : PageBlockId) :
    FieldFromStored ((storedFieldFor stored id).bind StoredLayout.x)
      (createDefaultLayouts.get id).x ((loadLayouts stored).get id).x ∧
    FieldFromStored ((storedFieldFor stored id).bind StoredLayout.y)
      (createDefaultLayouts.get id).y ((loadLayouts stored).get id).y ∧
    FieldFromStored ((storedFieldFor stored id).bind StoredLayout.width)
      (createDefaultLayouts.get id).width ((loadLayouts stored).get id).width ∧
    FieldFromStored ((storedFieldFor stored id).bind StoredLayout.height)
      (createDefaultLayouts.get id).height ((loadLayouts stored).get id).height ∧
    FieldFromStored ((storedFieldFor stored id).bind StoredLayout.z)
      (createDefaultLayouts.get id).z ((loadLayouts stored).get id).z := by
  cases stored <;> cases id <;>
    exact ⟨numOrDefault_fieldFromStored _ _, numOrDefault_fieldFromStored _ _,
      numOrDefault_fieldFromStored _ _, numOrDefault_fieldFromStored _ _,
      numOrDefault_fieldFromStored _ _⟩

/-- C9 witness: a stored record carrying only a numeric `x = 7` for the todos
block yields `x = 7` and (for instance) the default height. -/
theorem loadLayouts_fieldwise_witness :
    ((loadLayouts (.parsed (some { x := some (JsonValue.num 7) }) none)).get .todos).x = 7 :=
  (loadLayouts_fieldwise (.parsed (some { x := some (JsonValue.num 7) }) none) .todos).1.1 7 rfl
